import Mathlib

/-!
Verification development for the `html2json` spec-driven extraction engine.

The Rust sources are shallowly embedded below:
* `src/spec.rs`   — spec DSL parsing (`Spec.from_json`, `parse_selector_string`,
  `parse_pipe_command`, `parse_substr_command`, `parse_literal_string`, ...)
* `src/pipe.rs`   — the pipe transform pipeline (`apply_pipe` and helpers)
* `src/dom.rs`    — the extraction engine (`extract`, `extract_object`,
  `extract_array`, `extract_fallback_selector`, `filter_optional_fields`,
  `recursively_clean_object`, `select_node`, `resolve_scope`, ...)

Modelling conventions:
* Rust `String`/`&str` are Lean `String`; Rust byte positions are modelled by
  character positions (identical on the ASCII markers `$ > + | : ? ' "` that
  the code slices around).  String primitives (`trim`, `split`, prefix tests)
  are re-implemented on `List Char` so that every definition reduces in the
  kernel; they agree with the Rust std functions on the inputs at issue
  (Rust `char::is_whitespace` is Unicode `White_Space`, Lean
  `Char.isWhitespace` covers the ASCII subset — no claim depends on exotic
  whitespace).
* `serde_json::Value` is the inductive `Value` below.  JSON numbers carry an
  opaque token (`String`) standing for the underlying `i64`/`u64`/`f64`
  machine number; no claim inspects numeric values.  `serde_json::Map` is
  modelled as its entry list (keys unique, insertion order; the `BTreeMap`
  key ordering of `serde_json` affects no stated property).
* External collaborators (regex engine, float/int parsing of Rust std, the
  CSS query surface of `scraper`) are parameters: structures `Ext` and `Dom`.
* `Result<T, anyhow::Error>` is `Except String T`; Rust panics during spec
  parsing are modelled by the dedicated error constructor `PErr.crash`,
  distinct from ordinary parse errors `PErr.err`.
-/

namespace H2J

/-! ### Character-list string primitives (Rust `str` operations) -/

/-- Leading and trailing whitespace removal on a character list;
models Rust `str::trim`. -/
def trimList (l : List Char) : List Char :=
  ((l.dropWhile Char.isWhitespace).reverse.dropWhile Char.isWhitespace).reverse

/-- Models Rust `str::trim`. -/
def strTrim (s : String) : String := ⟨trimList s.data⟩

/-- Models Rust `str::starts_with` for a string pattern. -/
def strStarts (s p : String) : Bool := p.data.isPrefixOf s.data

/-- Models Rust `str::starts_with` for a `char` pattern. -/
def strStartsChar (s : String) (c : Char) : Bool := s.data.head? = some c

/-- Models Rust `str::ends_with` for a `char` pattern. -/
def strEndsChar (s : String) (c : Char) : Bool := s.data.getLast? = some c

/-- Drop the first `n` characters; models Rust slicing `&s[n..]` after a
length-`n` ASCII marker (byte and character counts coincide there). -/
def strDrop (s : String) (n : Nat) : String := ⟨s.data.drop n⟩

/-- Models Rust `str::is_empty`. -/
def strIsEmpty (s : String) : Bool := s.data = []

/-- Split on a single-character separator; models Rust `str::split(char)`
(adjacent separators yield empty pieces, `split` of `""` is `[""]`). -/
def splitOnChar (sep : Char) : List Char → List (List Char)
  | [] => [[]]
  | c :: rest =>
    if c = sep then
      [] :: splitOnChar sep rest
    else
      match splitOnChar sep rest with
      | [] => [[c]]
      | piece :: pieces => (c :: piece) :: pieces

/-- Split on the two-character separator `||`; models Rust
`str::split("||")` scanning left to right. -/
def splitBarBar : List Char → List (List Char)
  | [] => [[]]
  | '|' :: '|' :: rest => [] :: splitBarBar rest
  | c :: rest =>
    match splitBarBar rest with
    | [] => [[c]]
    | piece :: pieces => (c :: piece) :: pieces

/-- Models Rust `str::contains("||")`. -/
def containsBarBar (s : String) : Bool := (splitBarBar s.data).length > 1

/-- Split a string on a single-character separator. -/
def strSplitChar (s : String) (sep : Char) : List String :=
  (splitOnChar sep s.data).map (fun l => ⟨l⟩)

/-- Models Rust `str::to_lowercase` (simple per-character mapping; the full
Unicode mapping differs only on characters no claim mentions). -/
def strLower (s : String) : String := ⟨s.data.map Char.toLower⟩

/-- Models Rust `str::to_uppercase` (same caveat as `strLower`). -/
def strUpper (s : String) : String := ⟨s.data.map Char.toUpper⟩

/-- Models Rust `usize::from_str` as used by `str::parse::<usize>()`: an
optional leading `+`, then one or more ASCII digits.  The `u64` overflow
bound is not modelled (no claim depends on it). -/
def parseUsize (s : String) : Option Nat :=
  let l := match s.data with
    | '+' :: rest => rest
    | l => l
  if l = [] then none
  else if l.all Char.isDigit then
    some (l.foldl (fun acc c => acc * 10 + (c.toNat - 48)) 0)
  else none

/-- Checked string slice `&s[a..b]`: `none` models the Rust slice panic when
`a > b` or `b` exceeds the length (positions are characters, see header). -/
def strSlice (s : String) (a b : Nat) : Option String :=
  if a ≤ b ∧ b ≤ s.data.length then some ⟨(s.data.take b).drop a⟩ else none

/-! ### JSON values (`serde_json::Value`) -/

/-- Models `serde_json::Value`.  `num` carries an opaque token for the
underlying machine number (`i64`/`u64`/`f64`); objects are entry lists. -/
inductive Value where
  | null : Value
  | bool (b : Bool) : Value
  | num (tok : String) : Value
  | str (s : String) : Value
  | arr (elems : List Value) : Value
  | obj (entries : List (String × Value)) : Value

/-- Models `serde_json::Value::is_null`. -/
def Value.is_null : Value → Bool
  | .null => true
  | _ => false

/-! ### External primitives (`Ext`): regex engine and numeric parsing -/

/-- External primitives used by the pipe pipeline and literal conversion.

* `regexFind pattern s` models `get_cached_regex(pattern)` followed by
  `re.captures(s)`: a compile failure is `Except.error` carrying the
  `"Invalid or unsafe regex ..."` message, a no-match is `Except.ok none`,
  and a match is `Except.ok (some (group1?, whole))` — capture group 1 when
  present, plus the whole match (group 0, always present on a match).
  The process-wide cache is observationally the identity (entries are
  immutable once inserted), so it does not appear in the model.
* `parseNumValue s` models `s.parse::<f64>().map(serde_json::Value::from)`
  on an already-trimmed string (`None` = parse failure; `Value::from`
  yields `Null` for non-finite floats, hence the `Value` codomain).
* `parseIntValue s` models `s.parse::<i64>().map(serde_json::Value::from)`.
* `asF64Token` models `serde_json::Number::as_f64` (with `unwrap_or(0.0)`),
  `f64Value` models `serde_json::Value::from(f64)`. -/
structure Ext where
  regexFind : String → String → Except String (Option (Option String × String))
  parseNumValue : String → Option Value
  parseIntValue : String → Option Value
  asF64Token : String → String
  f64Value : String → Value

/-! ### Spec AST (`src/spec.rs` data types) -/

/-- Models `SelectorRef` (a CSS selector string). -/
structure SelectorRef where
  s : String
deriving DecidableEq, Repr

/-- Models `SelectorRef::as_str`. -/
def SelectorRef.as_str (r : SelectorRef) : String := r.s

/-- Models `SelectorRef::is_self_ref`. -/
def SelectorRef.is_self_ref (r : SelectorRef) : Bool := r.s = "$"

/-- Models `PipeCommand`. -/
inductive PipeCommand where
  | attr (name : String)
  | void
  | trim
  | lower
  | upper
  | substr (start : Nat) (stop : Option Nat)
  | parseAsNumber
  | parseAsInt
  | parseAsFloat
  | regex (pattern : String)
deriving DecidableEq, Repr

/-- Models `LiteralValue` (`Number` carries the f64 token, see `Ext`). -/
inductive LiteralValue where
  | strLit (s : String)
  | number (tok : String)
  | boolean (b : Bool)
  | nullLit
deriving DecidableEq, Repr

mutual

/-- Models `FieldSpec`. -/
inductive FieldSpec where
  | selector (r : SelectorRef) (pipes : List PipeCommand)
  | fallbackSelector (alts : List (SelectorRef × List PipeCommand))
  | nested (o : ObjectSpec)
  | nestedArray (a : ArraySpec)
  | literal (l : LiteralValue)

/-- Models `Field`. -/
inductive Field where
  | mk (spec : FieldSpec) (optional : Bool)

/-- Models `ObjectSpec` (`fields` is the entry list of the Rust `HashMap`;
list order stands for its iteration order, keys are unique). -/
inductive ObjectSpec where
  | mk (scope_selector : Option SelectorRef) (fields : List (String × Field))

/-- Models `ArraySpec`. -/
inductive ArraySpec where
  | mk (item_spec : ObjectSpec)

end

/-- Models `Field::spec`. -/
def Field.spec : Field → FieldSpec
  | .mk s _ => s

/-- Models `Field::optional`. -/
def Field.optional : Field → Bool
  | .mk _ o => o

/-- Models `ObjectSpec::scope_selector`. -/
def ObjectSpec.scope_selector : ObjectSpec → Option SelectorRef
  | .mk sc _ => sc

/-- Models `ObjectSpec::fields`. -/
def ObjectSpec.fields : ObjectSpec → List (String × Field)
  | .mk _ fs => fs

/-- Models `ArraySpec::item_spec`. -/
def ArraySpec.item_spec : ArraySpec → ObjectSpec
  | .mk o => o

/-- Models `Spec`. -/
inductive Spec where
  | object (o : ObjectSpec)
  | array (a : ArraySpec)
  | literal (l : LiteralValue)

/-! ### Pipe transform pipeline (`src/pipe.rs`) -/

/-- Models `as_string`: extract a string from a JSON value, with the
consistent error message. -/
def as_string : Value → Except String String
  | .str s => .ok s
  | _ => .error "Expected string value"

/-- Models `string_transform`. -/
def string_transform (v : Value) (f : String → String) : Except String Value := do
  let s ← as_string v
  pure (.str (f s))

/-- Models `apply_substring`: `s.chars().take(e).skip(start)` when an end is
given, `s.chars().skip(start)` otherwise. -/
def apply_substring (v : Value) (start : Nat) (stop : Option Nat) :
    Except String Value := do
  let s ← as_string v
  let result : List Char :=
    match stop with
    | some e => (s.data.take e).drop start
    | none => s.data.drop start
  pure (.str ⟨result⟩)

/-- Models `apply_parse_number`: parse the trimmed string as a 64-bit float
(via `Ext.parseNumValue`), `Conversion` error on failure. -/
def apply_parse_number (ext : Ext) (v : Value) : Except String Value := do
  let s ← as_string v
  match ext.parseNumValue (strTrim s) with
  | some n => pure n
  | none => .error ("Cannot parse \x27" ++ s ++ "\x27 as number")

/-- Models `apply_parse_int`. -/
def apply_parse_int (ext : Ext) (v : Value) : Except String Value := do
  let s ← as_string v
  match ext.parseIntValue (strTrim s) with
  | some n => pure n
  | none => .error ("Cannot parse \x27" ++ s ++ "\x27 as int")

/-- Models `apply_regex`: capture group 1 when present, else the whole
match; no match yields `Null`. -/
def apply_regex (ext : Ext) (v : Value) (pattern : String) :
    Except String Value := do
  let s ← as_string v
  let r ← ext.regexFind pattern s
  match r with
  | some (g1, whole) => pure (.str (g1.getD whole))
  | none => pure .null

/-- Models `apply_pipe`.  The Rust `match` has no arm for `Void` (the
splitter keeps source pipes out of transform position, so that arm is
unreachable in the engine); we mirror the `Attr(_)` pass-through for it. -/
def apply_pipe (ext : Ext) (v : Value) : PipeCommand → Except String Value
  | .trim => string_transform v strTrim
  | .lower => string_transform v strLower
  | .upper => string_transform v strUpper
  | .substr start stop => apply_substring v start stop
  | .parseAsNumber | .parseAsFloat => apply_parse_number ext v
  | .parseAsInt => apply_parse_int ext v
  | .regex pattern => apply_regex ext v pattern
  | .attr _ => .ok v
  | .void => .ok v

/-- Models `apply_pipes`: fold the pipe list over an initial string value. -/
def apply_pipes (ext : Ext) (value : String) (pipes : List PipeCommand) :
    Except String Value :=
  pipes.foldlM (apply_pipe ext) (.str value)

/-- Modelled from the spec: `split_source_and_transforms` is declared in
`crate::pipe` and called by the extraction engine, but its definition is not
among the provided sources.  Spec §4.3: "Split a pipe list into at most one
leading *source pipe* and zero-or-more *transform pipes*" — a leading
`Attr`/`Void` is the source pipe and the rest are transforms; otherwise
there is no source pipe and every pipe is a transform. -/
def split_source_and_transforms (pipes : List PipeCommand) :
    Option PipeCommand × List PipeCommand :=
  match pipes with
  | .attr name :: rest => (some (.attr name), rest)
  | .void :: rest => (some .void, rest)
  | rest => (none, rest)

/-! ### Spec parsing (`src/spec.rs`) -/

/-- Spec-parse outcome errors: `err` models `anyhow::Error` results, `crash`
models a Rust panic (which escapes instead of being returned). -/
inductive PErr where
  | err (msg : String)
  | crash (msg : String)
deriving DecidableEq, Repr

/-- Models `parse_literal_string`: a trimmed string that starts and ends
with the same quote character is a string literal; the inner text is the
slice `[1 .. len-1]`, whose invalid range on a one-character string is the
modelled panic. -/
def parse_literal_string (s : String) : Except PErr (Option LiteralValue) :=
  let t := strTrim s
  let sq := Char.ofNat 39
  if (strStartsChar t sq && strEndsChar t sq)
      || (strStartsChar t '"' && strEndsChar t '"') then
    match strSlice t 1 (t.data.length - 1) with
    | some inner => .ok (some (.strLit inner))
    | none =>
      .error (.crash ("slice index starts at 1 but ends at "
        ++ toString (t.data.length - 1)))
  else
    .ok none

/-- Models `parse_substr_command`: split the argument on `:`; the first part
is the start, an optional second part the end, both `usize`. -/
def parse_substr_command (rest : String) : Except PErr PipeCommand :=
  let parts := strSplitChar rest ':'
  match parts with
  | [] => .error (.crash "index out of bounds")
  | p0 :: tail =>
    match parseUsize p0 with
    | none => .error (.err ("Invalid substr start: " ++ p0))
    | some start =>
      match tail with
      | [] => .ok (.substr start none)
      | p1 :: _ =>
        match parseUsize p1 with
        | none => .error (.err ("Invalid substr end: " ++ p1))
        | some stop => .ok (.substr start (some stop))

/-- Models `parse_pipe_command`: keyword pipes, then the prefixed forms
`attr:`, `substr:`, `regex:`; anything else is an error naming the token. -/
def parse_pipe_command (s : String) : Except PErr PipeCommand :=
  if s = "trim" || s = "text" then .ok .trim
  else if s = "lower" then .ok .lower
  else if s = "upper" then .ok .upper
  else if s = "void" then .ok .void
  else if s = "parseAs:number" then .ok .parseAsNumber
  else if s = "parseAs:int" then .ok .parseAsInt
  else if s = "parseAs:float" then .ok .parseAsFloat
  else if strStarts s "attr:" then .ok (.attr (strDrop s 5))
  else if strStarts s "substr:" then parse_substr_command (strDrop s 7)
  else if strStarts s "regex:" then .ok (.regex (strDrop s 6))
  else .error (.err ("Unknown pipe command: " ++ s))

/-- The pipe-parsing loop of `parse_selector_string`: empty segments are
skipped, every other segment must be a pipe command. -/
def parse_pipes : List String → Except PErr (List PipeCommand)
  | [] => .ok []
  | p :: rest =>
    if strIsEmpty p then parse_pipes rest
    else do
      let c ← parse_pipe_command p
      let cs ← parse_pipes rest
      pure (c :: cs)

/-- Models `parse_selector_string`: exact `$` is the bare self-reference;
otherwise split on `|`, segment 0 is the base selector (a leading `attr:`
implies the `$` base and is itself the first pipe), the rest are pipes. -/
def parse_selector_string (s : String) : Except PErr (String × List PipeCommand) :=
  let t := strTrim s
  if t = "$" then .ok ("$", [])
  else
    let parts := (strSplitChar t '|').map strTrim
    match parts with
    | [] => .error (.crash "index out of bounds")
    | p0 :: rest =>
      let selParts : String × List String :=
        if strStarts p0 "attr:" then ("$", p0 :: rest)
        else if p0 = "$" then ("$", rest)
        else (p0, rest)
      do
        let pipes ← parse_pipes selParts.2
        pure (selParts.1, pipes)

/-- Models `parse_selector_or_fallback`: a string containing `||` splits
into independently parsed alternatives, else a single selector. -/
def parse_selector_or_fallback (s : String) : Except PErr FieldSpec :=
  let t := strTrim s
  if containsBarBar t then
    let parts := (splitBarBar t.data).map (fun l => strTrim ⟨l⟩)
    if parts.length < 2 then .error (.err "Invalid fallback selector")
    else do
      let alts ← parts.mapM (fun part => do
        let sp ← parse_selector_string part
        pure (SelectorRef.mk sp.1, sp.2))
      pure (.fallbackSelector alts)
  else do
    let sp ← parse_selector_string t
    pure (.selector ⟨sp.1⟩ sp.2)

/-- Models `HashMap::insert` on the field map: replace an existing entry for
the key, else add one. -/
def insertField (name : String) (f : Field) :
    List (String × Field) → List (String × Field)
  | [] => [(name, f)]
  | (k, g) :: rest =>
    if k = name then (k, f) :: rest else (k, g) :: insertField name f rest

mutual

/-- Models `Spec::parse_object_spec`: only JSON objects are accepted; the
entry loop is `parse_obj_entries`. -/
def parse_object_spec (ext : Ext) : Value → Except PErr ObjectSpec
  | .obj entries => do
      let scFs ← parse_obj_entries ext none [] entries
      pure (.mk scFs.1 scFs.2)
  | _ => .error (.err "Expected object")

/-- The entry loop of `parse_object_spec`: key `$` with a string value sets
the scope selector (a non-string `$` value is skipped); every other key
becomes a field, a trailing `?` stripped and recorded as `optional`. -/
def parse_obj_entries (ext : Ext) (scopeAcc : Option SelectorRef)
    (fieldsAcc : List (String × Field)) :
    List (String × Value) → Except PErr (Option SelectorRef × List (String × Field))
  | [] => .ok (scopeAcc, fieldsAcc)
  | (key, val) :: rest =>
    if key = "$" then
      match val with
      | .str s => parse_obj_entries ext (some ⟨s⟩) fieldsAcc rest
      | _ => parse_obj_entries ext scopeAcc fieldsAcc rest
    else
      let isOpt := strEndsChar key '?'
      let name : String := if isOpt then ⟨key.data.dropLast⟩ else key
      do
        let fs ← fieldSpec_from_json ext val
        parse_obj_entries ext scopeAcc (insertField name (.mk fs isOpt) fieldsAcc) rest

/-- Models `FieldSpec::from_json`: quoted strings are literals, other
strings are selector expressions; numbers/booleans/null pass through as
literals; a non-empty array wraps its first element as an `ArraySpec`; an
object recurses as a nested `ObjectSpec`; an empty array is a null literal. -/
def fieldSpec_from_json (ext : Ext) : Value → Except PErr FieldSpec
  | .str s => do
      let lit? ← parse_literal_string s
      match lit? with
      | some l => pure (.literal l)
      | none => parse_selector_or_fallback s
  | .num tok => pure (.literal (.number (ext.asF64Token tok)))
  | .bool b => pure (.literal (.boolean b))
  | .null => pure (.literal .nullLit)
  | .arr (a :: _) => do
      let item ← parse_object_spec ext a
      pure (.nestedArray (.mk item))
  | .obj entries => do
      -- the Rust code calls `Spec::parse_object_spec(value)` on the same
      -- value; the (always matching) object branch is inlined here so the
      -- recursion is structural
      let scFs ← parse_obj_entries ext none [] entries
      pure (.nested (.mk scFs.1 scFs.2))
  | .arr [] => pure (.literal .nullLit)

end

/-- Models `Spec::from_json`: a non-empty array becomes an `ArraySpec` from
its first element, an object an `ObjectSpec`, and anything else an empty
`ObjectSpec` with no scope selector. -/
def Spec.from_json (ext : Ext) (v : Value) : Except PErr Spec :=
  match v with
  | .arr (a :: _) => do
      let item ← parse_object_spec ext a
      pure (.array (.mk item))
  | .obj entries => do
      let o ← parse_object_spec ext (.obj entries)
      pure (.object o)
  | _ => pure (.object (.mk none []))

/-! ### JSON shaping / null filter (`src/dom.rs`) -/

mutual

/-- Models `recursively_clean_object`: clean an object recursively, keeping
non-null values; an object that becomes empty is replaced by `Null`; array
elements are cleaned with nulls removed; other values pass through. -/
def recursively_clean_object : Value → Value
  | .obj entries =>
      let cleaned := clean_obj_entries entries
      if cleaned.isEmpty then .null else .obj cleaned
  | .arr elems => .arr (clean_arr_elems elems)
  | v => v

/-- The object loop of `recursively_clean_object` (`for (k, v) in obj`
keeping cleaned non-null values). -/
def clean_obj_entries : List (String × Value) → List (String × Value)
  | [] => []
  | (k, v) :: rest =>
      let cv := recursively_clean_object v
      if cv.is_null then clean_obj_entries rest
      else (k, cv) :: clean_obj_entries rest

/-- The array branch of `recursively_clean_object` (`map` then
`filter (not is_null)`, fused into one pass). -/
def clean_arr_elems : List Value → List Value
  | [] => []
  | v :: rest =>
      let cv := recursively_clean_object v
      if cv.is_null then clean_arr_elems rest
      else cv :: clean_arr_elems rest

end

/-- Models `filter_optional_fields`: null optional fields are omitted, null
non-optional fields kept; object values are recursively cleaned and dropped
when the clean result is `Null`; array values have each element cleaned and
an empty result is kept only for non-optional fields; all other values are
kept unchanged. -/
def filter_optional_fields : List (String × Value × Bool) → List (String × Value)
  | [] => []
  | (key, value, optional) :: rest =>
    match value with
    | .null =>
        if optional then filter_optional_fields rest
        else (key, .null) :: filter_optional_fields rest
    | .obj entries =>
        let cleaned := recursively_clean_object (.obj entries)
        if cleaned.is_null then filter_optional_fields rest
        else (key, cleaned) :: filter_optional_fields rest
    | .arr elems =>
        let cleaned := elems.map recursively_clean_object
        if cleaned.isEmpty && optional then filter_optional_fields rest
        else (key, .arr cleaned) :: filter_optional_fields rest
    | v => (key, v) :: filter_optional_fields rest

/-! ### Void-element helpers (`src/dom.rs`, pure string code) -/

/-- Models `is_void_element`. -/
def is_void_element (name : String) : Bool :=
  name = "area" || name = "base" || name = "br" || name = "col"
    || name = "embed" || name = "hr" || name = "img" || name = "input"
    || name = "link" || name = "meta" || name = "param" || name = "source"
    || name = "track" || name = "wbr"

/-- First maximal whitespace-free token; models
`str::split_whitespace().next().unwrap_or("")`. -/
def firstToken (l : List Char) : List Char :=
  (l.dropWhile Char.isWhitespace).takeWhile (fun c => !c.isWhitespace)

/-- Models `is_void_element_from_html`: the tag name between the leading `<`
and the first `>` names a void element.  (For an input that starts with `>`
the Rust slice `[1..0]` would panic; that input never reaches this helper,
and the model returns `false` there.) -/
def is_void_element_from_html (html : String) : Bool :=
  match html.data.findIdx? (fun c => c = '>') with
  | some tagEnd =>
      let tag := (html.data.take (min tagEnd html.data.length)).drop 1
      is_void_element ⟨firstToken tag⟩
  | none => false

/-- Models `get_void_text_from_html`: the trimmed text between the void
element's `>` and the next `<`, when non-empty. -/
def get_void_text_from_html (html : String) : Option String :=
  match html.data.findIdx? (fun c => c = '>') with
  | some closePos =>
      let afterOpen := html.data.drop (closePos + 1)
      match afterOpen.findIdx? (fun c => c = '<') with
      | some nextTag =>
          let trimmed := trimList (afterOpen.take nextTag)
          if trimmed.isEmpty then none else some ⟨trimmed⟩
      | none => none
  | none => none

/-! ### The DOM collaborator surface (`Dom`, nodes as abstract ids) -/

/-- The external query surface of `src/dom.rs` (backed by `scraper`).
Nodes are abstract ids (`Nat`).  Every query returns `Except` because an
invalid CSS selector (or a node id no longer wrapping an element) is an
error.

* `queryOne` / `queryAll` model `query_selector` / `query_selector_all`;
* `queryOneRel` / `queryAllRel` model the `_relative` variants;
* `queryNextSibling base inner` models the next-sibling branch of
  `select_node`: parse `inner`, scan `base`'s following sibling elements in
  order, and return the first match of `inner` inside such a sibling;
* `text`, `attr`, `html` model `Node::text` / `Node::attr` / `Node::html`. -/
structure Dom where
  queryOne : String → Except String (Option Nat)
  queryAll : String → Except String (List Nat)
  queryOneRel : Nat → String → Except String (Option Nat)
  queryAllRel : Nat → String → Except String (List Nat)
  queryNextSibling : Nat → String → Except String (Option Nat)
  text : Nat → String
  attr : Nat → String → Option String
  html : Nat → String

/-! ### Selector resolution and the pipe run (`src/dom.rs`) -/

/-- Models `select_node`: `$` is the scope itself; `"+ "` requires a scope
and scans following siblings; a leading `>` is stripped and queried
relative to the scope (or the document); otherwise a plain query. -/
def select_node (d : Dom) (sel : SelectorRef) (scope : Option Nat) :
    Except String (Option Nat) :=
  if sel.as_str = "$" then .ok scope
  else if strStarts sel.as_str "+ " then
    match scope with
    | none => .error "Next sibling selector requires a scope"
    | some base => d.queryNextSibling base (strDrop sel.as_str 2)
  else if strStartsChar sel.as_str '>' then
    let effective := strTrim (strDrop sel.as_str 1)
    match scope with
    | some base => d.queryOneRel base effective
    | none => d.queryOne effective
  else
    match scope with
    | some base => d.queryOneRel base sel.as_str
    | none => d.queryOne sel.as_str

/-- Models `resolve_scope`: no selector reuses the incoming scope; `$` is
the scope itself; a leading `>` is stripped; otherwise a plain query. -/
def resolve_scope (d : Dom) (sel? : Option SelectorRef) (base : Option Nat) :
    Except String (Option Nat) :=
  match sel? with
  | none => .ok base
  | some sel =>
    if sel.as_str = "$" then .ok base
    else if strStartsChar sel.as_str '>' then
      let effective := strTrim (strDrop sel.as_str 1)
      match base with
      | some b => d.queryOneRel b effective
      | none => d.queryOne effective
    else
      match base with
      | some b => d.queryOneRel b sel.as_str
      | none => d.queryOne sel.as_str

/-- Models `literal_to_json`. -/
def literal_to_json (ext : Ext) : LiteralValue → Value
  | .strLit s => .str s
  | .number tok => ext.f64Value tok
  | .boolean b => .bool b
  | .nullLit => .null

/-- Models `apply_pipes_to_node`: no node yields `Null` with no pipes run;
otherwise the source pipe (attribute, void-text heuristic, or subtree text)
produces the initial value and the transform pipes are folded over it. -/
def apply_pipes_to_node (d : Dom) (ext : Ext) (node : Option Nat)
    (pipes : List PipeCommand) : Except String Value :=
  match node with
  | none => .ok .null
  | some n =>
    let st := split_source_and_transforms pipes
    do
      let initial ← match st.1 with
        | some (.attr name) => pure (((d.attr n name).map Value.str).getD .null)
        | some .void =>
            let t := d.text n
            if strIsEmpty t && is_void_element_from_html (d.html n) then
              pure (((get_void_text_from_html (d.html n)).map Value.str).getD (.str t))
            else pure (.str t)
        | none => pure (.str (d.text n))
        | some _ => .error "Non-source pipe in source_pipe position"
      st.2.foldlM (apply_pipe ext) initial

/-- Models `extract_fallback_selector`: try each alternative in order until
one produces a value that is neither null nor a blank string. -/
def extract_fallback_selector (d : Dom) (ext : Ext) :
    List (SelectorRef × List PipeCommand) → Option Nat → Except String Value
  | [], _ => .ok .null
  | (sel, pipes) :: rest, scope => do
      let node ← select_node d sel scope
      let result ← apply_pipes_to_node d ext node pipes
      match result with
      | .null => extract_fallback_selector d ext rest scope
      | .str s =>
          if strIsEmpty (strTrim s) then extract_fallback_selector d ext rest scope
          else .ok (.str s)
      | v => .ok v

/-! ### The extraction engine (`src/dom.rs`) -/

mutual

/-- Models `extract_object`: resolve the scope selector, extract every
field against the effective scope, and shape the resulting object. -/
def extract_object (d : Dom) (ext : Ext) :
    ObjectSpec → Option Nat → Except String Value
  | .mk sc fields, scopeNode => do
      let scope ← resolve_scope d sc scopeNode
      let triples ← extract_fields d ext fields scope
      pure (.obj (filter_optional_fields triples))
termination_by o _ => (sizeOf o, 3, 0)

/-- The field loop of `extract_object` / `extract_object_from_fields`. -/
def extract_fields (d : Dom) (ext : Ext) :
    List (String × Field) → Option Nat → Except String (List (String × Value × Bool))
  | [], _ => .ok []
  | (key, .mk fs opt) :: rest, scope => do
      let v ← extract_field d ext fs scope
      let tail ← extract_fields d ext rest scope
      pure ((key, v, opt) :: tail)
termination_by l _ => (sizeOf l, 1, 0)

/-- Models `extract_object_from_fields`: extract a field map against a
scope and shape the result (no scope selector is re-resolved). -/
def extract_object_from_fields (d : Dom) (ext : Ext)
    (fields : List (String × Field)) (scope : Option Nat) :
    Except String Value := do
  let triples ← extract_fields d ext fields scope
  pure (.obj (filter_optional_fields triples))
termination_by (sizeOf fields, 2, 0)

/-- Models `extract_field`: dispatch on the field spec variant. -/
def extract_field (d : Dom) (ext : Ext) :
    FieldSpec → Option Nat → Except String Value
  | .literal l, _ => .ok (literal_to_json ext l)
  | .nested o, scope => extract_object d ext o scope
  | .nestedArray a, scope => extract_array d ext a scope
  | .selector sel pipes, scope => do
      let node ← select_node d sel scope
      apply_pipes_to_node d ext node pipes
  | .fallbackSelector alts, scope => extract_fallback_selector d ext alts scope
termination_by fs _ => (sizeOf fs, 0, 0)

/-- Models `extract_array`: a literal `$` item scope selector with a
present scope wraps the current scope as a single item; otherwise the
effective selector (leading `>` stripped, default `*`) is queried for all
matches and the item fields are extracted per match. -/
def extract_array (d : Dom) (ext : Ext) :
    ArraySpec → Option Nat → Except String Value
  | .mk (.mk sc fields), scope =>
    let selfRefBase : Option Nat := match sc, scope with
      | some r, some base => if r.as_str = "$" then some base else none
      | _, _ => none
    match selfRefBase with
    | some base => do
        let obj ← extract_object d ext (.mk sc fields) (some base)
        pure (.arr [obj])
    | none =>
        let selector_str := match sc with
          | some r => r.as_str
          | none => "*"
        let t := strTrim selector_str
        let effective :=
          if strStartsChar t '>' then strTrim (strDrop t 1) else selector_str
        do
          let nodes ← match scope with
            | some base => d.queryAllRel base effective
            | none => d.queryAll effective
          if nodes.isEmpty then pure (.arr [])
          else do
            let results ← extract_items d ext fields nodes
            pure (.arr results)
termination_by a _ => (sizeOf a, 3, 0)

/-- The per-match loop of `extract_array`. -/
def extract_items (d : Dom) (ext : Ext) (fields : List (String × Field)) :
    List Nat → Except String (List Value)
  | [] => .ok []
  | n :: ns => do
      let v ← extract_object_from_fields d ext fields (some n)
      let vs ← extract_items d ext fields ns
      pure (v :: vs)
termination_by ns => (sizeOf fields, 3, ns.length)

end

/-- Models `Dom::extract`: dispatch on the spec variant. -/
def extract (d : Dom) (ext : Ext) : Spec → Except String Value
  | .object o => extract_object d ext o none
  | .array a => extract_array d ext a none
  | .literal l => .ok (literal_to_json ext l)

/-! ### Concrete instances of the external collaborators, for witnesses -/

/-- A trivial regex/number primitive instance: nothing parses, no regex
matches.  Results that do not depend on the primitives are checked on it. -/
def ext0 : Ext where
  regexFind := fun _ _ => .ok none
  parseNumValue := fun _ => none
  parseIntValue := fun _ => none
  asF64Token := fun t => t
  f64Value := fun t => .num t

/-- A two-node document: node 0 has text `" hi "`, node 1 has empty text;
the selector `"a"` resolves to node 0 and `"b"` to node 1, everything else
to nothing. -/
def dom0 : Dom where
  queryOne := fun s =>
    if s = "a" then .ok (some 0) else if s = "b" then .ok (some 1) else .ok none
  queryAll := fun s => if s = "li" then .ok [0, 1] else .ok []
  queryOneRel := fun _ s =>
    if s = "a" then .ok (some 0) else if s = "b" then .ok (some 1) else .ok none
  queryAllRel := fun _ s => if s = "li" then .ok [0, 1] else .ok []
  queryNextSibling := fun _ _ => .ok none
  text := fun n => if n = 0 then " hi " else ""
  attr := fun _ _ => none
  html := fun _ => ""

/-! ### Auxiliary definitions used only to state theorems -/

/-- One fallback alternative evaluated as the engine does it: select the
node, then run the pipes. -/
def evalAlt (d : Dom) (ext : Ext) (scope : Option Nat)
    (alt : SelectorRef × List PipeCommand) : Except String Value :=
  select_node d alt.1 scope >>= fun node => apply_pipes_to_node d ext node alt.2

/-- Follows the words of the spec (fallback acceptance): a value is
accepted when it is neither `null` nor a string consisting only of
whitespace. -/
def fallback_accepted : Value → Bool
  | .null => false
  | .str s => !(strIsEmpty (strTrim s))
  | _ => true

/-- Follows the words of the spec: the first accepted alternative value, or
`null` when every alternative is rejected. -/
def first_accepted : List Value → Value
  | [] => .null
  | v :: vs => if fallback_accepted v then v else first_accepted vs

/-- Re-attach (cleared) optional flags to a shaped entry list, to feed the
shaping pass its own output. -/
def withFalseFlags (l : List (String × Value)) : List (String × Value × Bool) :=
  l.map (fun kv => (kv.1, kv.2, false))

/-- Whether a parse result is the `Literal` spec variant. -/
def isLiteralSpec : Except PErr Spec → Bool
  | .ok (.literal _) => true
  | _ => false

/-! ### General lemmas -/

theorem exceptBind_ok {ε α β : Type} (a : α) (f : α → Except ε β) :
    (Except.ok a >>= f : Except ε β) = f a := rfl

theorem exceptBind_error {ε α β : Type} (e : ε) (f : α → Except ε β) :
    ((Except.error e : Except ε α) >>= f : Except ε β) = .error e := rfl

/-! ### Idempotence of the recursive cleaner -/

mutual

theorem clean_idem : (v : Value) →
    recursively_clean_object (recursively_clean_object v) = recursively_clean_object v
  | .null => rfl
  | .bool _ => rfl
  | .num _ => rfl
  | .str _ => rfl
  | .arr elems => by
      have h := clean_arr_idem elems
      simp only [recursively_clean_object]
      simp [recursively_clean_object, h]
  | .obj entries => by
      have h := clean_entries_idem entries
      simp only [recursively_clean_object]
      cases he : (clean_obj_entries entries).isEmpty with
      | true => simp [he, recursively_clean_object]
      | false => simp [he, recursively_clean_object, h]
termination_by v => sizeOf v

theorem clean_entries_idem : (l : List (String × Value)) →
    clean_obj_entries (clean_obj_entries l) = clean_obj_entries l
  | [] => rfl
  | (k, v) :: rest => by
      have hv := clean_idem v
      have ih := clean_entries_idem rest
      simp only [clean_obj_entries]
      cases hn : (recursively_clean_object v).is_null with
      | true => simp [hn, ih]
      | false => simp [clean_obj_entries, hn, hv, ih]
termination_by l => sizeOf l

theorem clean_arr_idem : (l : List Value) →
    clean_arr_elems (clean_arr_elems l) = clean_arr_elems l
  | [] => rfl
  | v :: rest => by
      have hv := clean_idem v
      have ih := clean_arr_idem rest
      simp only [clean_arr_elems]
      cases hn : (recursively_clean_object v).is_null with
      | true => simp [hn, ih]
      | false => simp [clean_arr_elems, hn, hv, ih]
termination_by l => sizeOf l

end

theorem map_clean_idem (xs : List Value) :
    (xs.map recursively_clean_object).map recursively_clean_object
      = xs.map recursively_clean_object := by
  induction xs with
  | nil => rfl
  | cons x rest ih => simp [clean_idem x, ih]

theorem clean_obj_shape (es : List (String × Value))
    (hn : (recursively_clean_object (.obj es)).is_null = false) :
    recursively_clean_object (.obj es) = .obj (clean_obj_entries es)
      ∧ (clean_obj_entries es).isEmpty = false := by
  simp only [recursively_clean_object] at hn ⊢
  cases he : (clean_obj_entries es).isEmpty with
  | true => rw [he] at hn; simp [Value.is_null] at hn
  | false => simp [he]

theorem filter_keeps_clean_obj (k : String) (es : List (String × Value))
    (h : clean_obj_entries es = es) (hne : es.isEmpty = false)
    (L : List (String × Value × Bool)) :
    filter_optional_fields ((k, .obj es, false) :: L)
      = (k, .obj es) :: filter_optional_fields L := by
  have hclean : recursively_clean_object (.obj es) = .obj es := by
    simp [recursively_clean_object, h, hne]
  simp [filter_optional_fields, hclean, Value.is_null]

theorem filter_keeps_clean_arr (k : String) (xs : List Value)
    (L : List (String × Value × Bool)) :
    filter_optional_fields ((k, .arr (xs.map recursively_clean_object), false) :: L)
      = (k, .arr (xs.map recursively_clean_object)) :: filter_optional_fields L := by
  simp [filter_optional_fields, map_clean_idem]
  exact fun a _ => clean_idem a

theorem filter_refilter (entries : List (String × Value × Bool)) :
    filter_optional_fields (withFalseFlags (filter_optional_fields entries))
      = filter_optional_fields entries := by
  induction entries with
  | nil => rfl
  | cons head rest ih =>
    obtain ⟨k, v, opt⟩ := head
    cases v with
    | null =>
      cases opt with
      | true => simpa [filter_optional_fields] using ih
      | false =>
        simp only [filter_optional_fields, withFalseFlags, List.map_cons] at ih ⊢
        simpa [filter_optional_fields] using ih
    | obj es =>
      simp only [filter_optional_fields]
      cases hn : (recursively_clean_object (.obj es)).is_null with
      | true => simpa [hn] using ih
      | false =>
        obtain ⟨hshape, hne⟩ := clean_obj_shape es hn
        simp only [hn, if_neg, Bool.false_eq_true, ite_false]
        rw [hshape]
        simp only [withFalseFlags, List.map_cons]
        rw [filter_keeps_clean_obj k _ (clean_entries_idem es) hne]
        simp only [withFalseFlags] at ih
        rw [ih]
    | arr xs =>
      simp only [filter_optional_fields]
      cases hcond : ((xs.map recursively_clean_object).isEmpty && opt) with
      | true => simpa [hcond] using ih
      | false =>
        simp only [hcond, Bool.false_eq_true, ite_false]
        simp only [withFalseFlags, List.map_cons]
        rw [filter_keeps_clean_arr k xs]
        simp only [withFalseFlags] at ih
        rw [ih]
    | bool b =>
      simp only [filter_optional_fields, withFalseFlags, List.map_cons] at ih ⊢
      simpa [filter_optional_fields] using ih
    | num t =>
      simp only [filter_optional_fields, withFalseFlags, List.map_cons] at ih ⊢
      simpa [filter_optional_fields] using ih
    | str s =>
      simp only [filter_optional_fields, withFalseFlags, List.map_cons] at ih ⊢
      simpa [filter_optional_fields] using ih

/-! ### Claim theorems -/

/-- C1 (counterexample): the claim says every transform pipe passes a
`null` input through unchanged without error; but `parseAs:number` applied
to `null` is a type-mismatch error, not `null`. -/
theorem C1_counterexample :
    apply_pipe ext0 Value.null PipeCommand.parseAsNumber
      = Except.error "Expected string value" := rfl

/-- C1 (amended): every transform pipe (trim, lower, upper, substr,
parseAs:number, parseAs:int, parseAs:float, regex) applied to the input
value `null` returns the type-mismatch error "Expected string value"; in
particular, in a pipe chain where a regex pipe yielded `null`, a following
`parseAs:number` makes the whole transform fold fail with that error rather
than passing `null` through. -/
theorem C1_transform_pipes_error_on_null (ext : Ext) (start : Nat)
    (stop : Option Nat) (pattern : String) (rest : List PipeCommand) :
    apply_pipe ext .null .trim = .error "Expected string value"
  ∧ apply_pipe ext .null .lower = .error "Expected string value"
  ∧ apply_pipe ext .null .upper = .error "Expected string value"
  ∧ apply_pipe ext .null (.substr start stop) = .error "Expected string value"
  ∧ apply_pipe ext .null .parseAsNumber = .error "Expected string value"
  ∧ apply_pipe ext .null .parseAsInt = .error "Expected string value"
  ∧ apply_pipe ext .null .parseAsFloat = .error "Expected string value"
  ∧ apply_pipe ext .null (.regex pattern) = .error "Expected string value"
  ∧ List.foldlM (apply_pipe ext) Value.null (.parseAsNumber :: rest)
      = .error "Expected string value" :=
  ⟨rfl, rfl, rfl, rfl, rfl, rfl, rfl, rfl, rfl⟩

/-- C3: shaping omits the key of an optional field whose value is null,
keeps a non-optional null field's key with value null, and in particular
shapes the object from fields `x` (optional, null) and `y` (non-optional,
null) to an object containing only `y` with value null. -/
theorem C3_optional_null_pruning (k : String)
    (rest : List (String × Value × Bool)) :
    filter_optional_fields ((k, .null, true) :: rest) = filter_optional_fields rest
  ∧ filter_optional_fields ((k, .null, false) :: rest)
      = (k, .null) :: filter_optional_fields rest
  ∧ filter_optional_fields [("x", .null, true), ("y", .null, false)]
      = [("y", .null)] :=
  ⟨rfl, rfl, rfl⟩

/-- C4: shaping recursively cleans each object-valued field and drops the
field exactly when the cleaned object becomes empty, regardless of the
optional flag; each array-valued field has every element recursively
cleaned, and the resulting array (empty exactly when the original array is
empty) is dropped only when the field is optional, otherwise kept. -/
theorem C4_nested_cleaning (k : String) (es : List (String × Value))
    (xs : List Value) (opt : Bool) (rest : List (String × Value × Bool)) :
    filter_optional_fields ((k, .obj es, opt) :: rest)
      = (if (clean_obj_entries es).isEmpty then filter_optional_fields rest
         else (k, .obj (clean_obj_entries es)) :: filter_optional_fields rest)
  ∧ filter_optional_fields ((k, .arr xs, opt) :: rest)
      = (if xs.isEmpty && opt then filter_optional_fields rest
         else (k, .arr (xs.map recursively_clean_object))
              :: filter_optional_fields rest) := by
  constructor
  · simp only [filter_optional_fields, recursively_clean_object]
    cases he : (clean_obj_entries es).isEmpty with
    | true => simp [he, Value.is_null]
    | false => simp [he, Value.is_null]
  · simp only [filter_optional_fields]
    have hlen : (xs.map recursively_clean_object).isEmpty = xs.isEmpty := by
      cases xs <;> simp
    rw [hlen]

/-- C5: the shaping / null-filter pass is idempotent — re-cleaning a
cleaned value changes nothing, and re-shaping a shaped entry list (its
output fed back as fields) reproduces it exactly. -/
theorem C5_shaping_idempotent :
    (∀ v, recursively_clean_object (recursively_clean_object v)
        = recursively_clean_object v)
  ∧ ∀ entries, filter_optional_fields (withFalseFlags (filter_optional_fields entries))
      = filter_optional_fields entries :=
  ⟨clean_idem, filter_refilter⟩

/-- C6 (counterexample): the claim says a pipe list with a source pipe that
is not the first element is a parse-time error; but `h1 | trim | attr:href`
parses successfully with the source pipe `attr:href` in second position. -/
theorem C6_counterexample :
    parse_selector_string "h1 | trim | attr:href"
      = .ok ("h1", [.trim, .attr "href"]) := rfl

/-- C6 (amended): selector parsing performs no check on the number or
position of source pipes — pipe lists with several source pipes, or with a
source pipe after transform pipes, are accepted at parse time exactly as
written. -/
theorem C6_no_source_pipe_position_check :
    parse_selector_string "attr:a | attr:b" = .ok ("$", [.attr "a", .attr "b"])
  ∧ parse_selector_string "h1 | trim | attr:href | void"
      = .ok ("h1", [.trim, .attr "href", .void]) :=
  ⟨rfl, rfl⟩

/-- C8: the substr pipe works on character positions, taking the first
`stop` characters (all of them when `stop` is omitted) and then skipping
the first `start` of those, never erring on a string input; whenever
`start ≥ stop` the result is the empty string. -/
theorem C8_substr_character_semantics (ext : Ext) (s : String) (start : Nat)
    (stop : Option Nat) :
    apply_pipe ext (.str s) (.substr start stop)
      = .ok (.str ⟨(stop.elim s.data (fun e => s.data.take e)).drop start⟩)
  ∧ ∀ e, stop = some e → e ≤ start →
      apply_pipe ext (.str s) (.substr start stop) = .ok (.str "") := by
  constructor
  · cases stop <;> rfl
  · intro e hstop hle
    subst hstop
    have hnil : (s.data.take e).drop start = [] := by
      apply List.drop_eq_nil_of_le
      calc (s.data.take e).length ≤ e := by simp [List.length_take]
        _ ≤ start := hle
    show Except.ok (Value.str ⟨(s.data.take e).drop start⟩) = .ok (.str "")
    rw [hnil]

/-- C8 (witness): `substr:3:2` on `"abcde"` has `start ≥ end` and yields
the empty string without error. -/
theorem C8_witness :
    apply_pipe ext0 (.str "abcde") (.substr 3 (some 2)) = .ok (.str "") :=
  (C8_substr_character_semantics ext0 "abcde" 3 (some 2)).2 2 rfl (by decide)

/-- C9: spec parsing panics on a field whose string value is a single quote
character (`'` or `"`, possibly surrounded by whitespace): the trimmed
one-character string passes both the starts-with and ends-with quote
checks, and the quoted-literal slice `[1 .. len-1]` is the invalid range
`[1 .. 0]`. -/
theorem C9_quote_literal_panics :
    parse_literal_string "\x27" = .error (.crash "slice index starts at 1 but ends at 0")
  ∧ parse_literal_string "\x22" = .error (.crash "slice index starts at 1 but ends at 0")
  ∧ parse_literal_string "  \x27  " = .error (.crash "slice index starts at 1 but ends at 0")
  ∧ Spec.from_json ext0 (.obj [("f", .str "\x27")])
      = .error (.crash "slice index starts at 1 but ends at 0") :=
  ⟨rfl, rfl, rfl, rfl⟩

/-- C2: extracting a fallback selector list evaluates the alternatives in
left-to-right order and returns the value of the first alternative that is
neither null nor a whitespace-only string; when every alternative is
rejected the result is null.  (Stated for runs in which every alternative
evaluates without error, which is when the field has a value at all.) -/
theorem C2_fallback_first_accepted (d : Dom) (ext : Ext) (scope : Option Nat)
    (alts : List (SelectorRef × List PipeCommand)) (vs : List Value)
    (h : List.Forall₂ (fun alt v => evalAlt d ext scope alt = .ok v) alts vs) :
    extract_fallback_selector d ext alts scope = .ok (first_accepted vs) := by
  induction h with
  | nil => rfl
  | @cons a b l₁ l₂ hab htail ih =>
    obtain ⟨sel, pipes⟩ := a
    unfold evalAlt at hab
    cases hsel : select_node d sel scope with
    | error e => rw [hsel, exceptBind_error] at hab; exact absurd hab (by simp)
    | ok node =>
      rw [hsel, exceptBind_ok] at hab
      simp only [extract_fallback_selector]
      rw [hsel, exceptBind_ok, hab, exceptBind_ok]
      cases b with
      | null => simpa [first_accepted, fallback_accepted] using ih
      | str s =>
        cases hb : strIsEmpty (strTrim s) with
        | true => simpa [hb, first_accepted, fallback_accepted] using ih
        | false => simp [hb, first_accepted, fallback_accepted]
      | bool v => simp [first_accepted, fallback_accepted]
      | num t => simp [first_accepted, fallback_accepted]
      | arr xs => simp [first_accepted, fallback_accepted]
      | obj es => simp [first_accepted, fallback_accepted]

/-- C2 (witness): on the two-node document `dom0`, the fallback
`a || b | trim` accepts selector `a`'s raw text because it is not
whitespace-only. -/
theorem C2_witness :
    extract_fallback_selector dom0 ext0 [(⟨"a"⟩, []), (⟨"b"⟩, [.trim])] none
      = .ok (.str " hi ") :=
  C2_fallback_first_accepted dom0 ext0 none _ [.str " hi ", .str ""]
    (List.Forall₂.cons rfl (List.Forall₂.cons rfl List.Forall₂.nil))

/-- C7: when the item spec's scope selector is literally `$` and a scope is
present, array extraction returns the one-element array wrapping the result
of extracting the item object spec directly against the current scope (the
selector is not used as a query). -/
theorem C7_self_ref_array_wraps_scope (d : Dom) (ext : Ext)
    (sc : Option SelectorRef) (fields : List (String × Field))
    (scope : Option Nat) (base : Nat)
    (hsel : sc = some ⟨"$"⟩) (hscope : scope = some base) :
    extract_array d ext (.mk (.mk sc fields)) scope
      = (extract_object d ext (.mk sc fields) (some base)).map
          (fun o => .arr [o]) := by
  subst hsel
  subst hscope
  simp only [extract_array, SelectorRef.as_str]
  cases hobj : extract_object d ext (.mk (some ⟨"$"⟩) fields) (some base) with
  | ok o => simp [hobj, Except.map, exceptBind_ok]
  | error e => simp [hobj, Except.map, exceptBind_error]

/-- C7 (witness): wrapping the concrete scope node 0 of `dom0` with an
empty item field map yields the one-element array of the empty object. -/
theorem C7_witness :
    extract_array dom0 ext0 (.mk (.mk (some ⟨"$"⟩) [])) (some 0)
      = .ok (.arr [.obj []]) := by
  have h := C7_self_ref_array_wraps_scope dom0 ext0 (some ⟨"$"⟩) [] (some 0) 0 rfl rfl
  rw [h]
  simp [extract_object, resolve_scope, extract_fields, filter_optional_fields,
    SelectorRef.as_str, Except.map, exceptBind_ok]

/-- C10: every top-level spec JSON value that is neither an object nor a
non-empty array (a string, number, boolean, null, or empty array) parses to
an object spec with no scope selector and no fields; the `Literal` spec
variant is never produced at the root; and extracting with that empty
object spec returns the empty JSON object. -/
theorem C10_root_non_object_specs (ext : Ext) :
    (∀ s, Spec.from_json ext (.str s) = .ok (.object (.mk none [])))
  ∧ (∀ tok, Spec.from_json ext (.num tok) = .ok (.object (.mk none [])))
  ∧ (∀ b, Spec.from_json ext (.bool b) = .ok (.object (.mk none [])))
  ∧ Spec.from_json ext .null = .ok (.object (.mk none []))
  ∧ Spec.from_json ext (.arr []) = .ok (.object (.mk none []))
  ∧ (∀ v, isLiteralSpec (Spec.from_json ext v) = false)
  ∧ (∀ d, extract d ext (.object (.mk none [])) = .ok (.obj [])) := by
  refine ⟨fun s => rfl, fun tok => rfl, fun b => rfl, rfl, rfl, ?_, ?_⟩
  · intro v
    cases v with
    | obj entries =>
      simp only [Spec.from_json]
      cases hp : parse_object_spec ext (.obj entries) with
      | ok o => simp [hp, isLiteralSpec, exceptBind_ok]
      | error e => simp [hp, isLiteralSpec, exceptBind_error]
    | arr elems =>
      cases elems with
      | nil => rfl
      | cons a rest =>
        simp only [Spec.from_json]
        cases hp : parse_object_spec ext a with
        | ok o => simp [hp, isLiteralSpec, exceptBind_ok]
        | error e => simp [hp, isLiteralSpec, exceptBind_error]
    | str s => rfl
    | num tok => rfl
    | bool b => rfl
    | null => rfl
  · intro d
    simp [extract, extract_object, resolve_scope, extract_fields,
      filter_optional_fields, exceptBind_ok]

end H2J
